import Mathlib

/-!
Shallow embedding of the Tactical Planning System core.

Sources embedded:
- The PlanningContext provider (tasks state plus addTask, updateTask,
  deleteTask, catastrophicWipeOut, getTasksForDate).
- Dashboard.jsx (realismPoint, getRPStatus, sortedTasks).
- config/constants.js (IMPORTANCE, RP_LIMITS, OBSERVATION_BUFFER_DAYS).
- Observations.jsx (handleConvertToTask).

Conventions: JavaScript numbers holding fractional hours are embedded as
Rat; timestamps (Date values, Date.now()) as Int milliseconds since the
epoch; a JavaScript object key that is absent as none. The ambient clock
Date.now() is passed explicitly as a parameter named now.
-/

namespace TPF

/-- IMPORTANCE.MUST from config/constants.js. -/
def IMPORTANCE_MUST : Int := 1

/-- IMPORTANCE.HIGH from config/constants.js. -/
def IMPORTANCE_HIGH : Int := 2

/-- IMPORTANCE.MEDIUM from config/constants.js. -/
def IMPORTANCE_MEDIUM : Int := 3

/-- IMPORTANCE.OPTIONAL from config/constants.js. -/
def IMPORTANCE_OPTIONAL : Int := 4

/-- RP_LIMITS.SAFE = 0.8 from config/constants.js. -/
def RP_LIMITS_SAFE : Rat := 8 / 10

/-- RP_LIMITS.RISKY = 1.0 from config/constants.js. -/
def RP_LIMITS_RISKY : Rat := 1

/-- OBSERVATION_BUFFER_DAYS = 2 from config/constants.js. -/
def OBSERVATION_BUFFER_DAYS : Int := 2

/-- Milliseconds in one day, the unit of the embedded Date arithmetic. -/
def msPerDay : Int := 86400000

/-- A task as built by addTask and mutated by updateTask in the
PlanningContext. Keys absent from the freshly created JavaScript object
(parentTaskId, linksTo) are embedded as none and the empty list. -/
structure Task where
  id : Int
  title : String
  rt : Rat
  idl : Int
  il : Int
  createdAt : Int
  parentTaskId : Option Int
  linksTo : List Int
deriving Repr, DecidableEq

/-- The argument object callers pass to addTask (the DailyPlan submit
handler, the Observations convert handler): title, rt, idl, il and, from
the subtask form, optionally parentTaskId. -/
structure TaskSpec where
  title : String
  rt : Rat
  idl : Int
  il : Int
  parentTaskId : Option Int
deriving Repr, DecidableEq

/-- addTask from the PlanningContext: builds the new task with
id = Date.now() and createdAt = Date.now(), copies title, rt, idl, il from
the spec (the spec key parentTaskId is dropped: the constructed object does
not mention it), appends it to the task list and returns it. No field is
validated. -/
def addTask (now : Int) (spec : TaskSpec) (ts : List Task) : Task × List Task :=
  let newTask : Task :=
    { id := now
      title := spec.title
      rt := spec.rt
      idl := spec.idl
      il := spec.il
      createdAt := now
      parentTaskId := none
      linksTo := [] }
  (newTask, ts ++ [newTask])

/-- A partial update object as a JavaScript caller may pass to updateTask:
a present key overwrites the task field through the object spread, an
absent key (none) leaves it. A JavaScript object may carry any key, so
every Task field can appear, including id and createdAt. -/
structure TaskUpdates where
  uid : Option Int := none
  utitle : Option String := none
  urt : Option Rat := none
  uidl : Option Int := none
  uil : Option Int := none
  ucreatedAt : Option Int := none
  uparentTaskId : Option (Option Int) := none
  ulinksTo : Option (List Int) := none
deriving Repr, DecidableEq

/-- The merged object updateTask builds for the matching task: the spread
of the task, then of the updates, with rt, idl, il re-coerced from the
updates when present and kept from the task otherwise (the same outcome as
the spread for those keys). -/
def applyUpdates (u : TaskUpdates) (t : Task) : Task :=
  { id := u.uid.getD t.id
    title := u.utitle.getD t.title
    rt := u.urt.getD t.rt
    idl := u.uidl.getD t.idl
    il := u.uil.getD t.il
    createdAt := u.ucreatedAt.getD t.createdAt
    parentTaskId := u.uparentTaskId.getD t.parentTaskId
    linksTo := u.ulinksTo.getD t.linksTo }

/-- updateTask from the PlanningContext: maps over the task list, merging
the updates into each task whose id equals taskId and returning every
other task unchanged. -/
def updateTask (taskId : Int) (u : TaskUpdates) (ts : List Task) : List Task :=
  ts.map fun t => if t.id = taskId then applyUpdates u t else t

/-- deleteTask from the PlanningContext: keeps exactly the tasks whose id
differs from taskId; nothing else is touched. -/
def deleteTask (taskId : Int) (ts : List Task) : List Task :=
  ts.filter fun t => decide (t.id ≠ taskId)

/-- catastrophicWipeOut from the PlanningContext: keeps exactly the tasks
whose il equals IMPORTANCE.MUST. -/
def catastrophicWipeOut (ts : List Task) : List Task :=
  ts.filter fun t => decide (t.il = IMPORTANCE_MUST)

/-- getTasksForDate from the PlanningContext: the tasks whose idl lies in
the half-open one-day window starting at the normalized day start (the
JavaScript code sets the time of the target date to 00:00:00 and compares
the task idl against that instant and the next day). -/
def getTasksForDate (ts : List Task) (dayStart : Int) : List Task :=
  ts.filter fun t => decide (dayStart ≤ t.idl) && decide (t.idl < dayStart + msPerDay)

/-- realismPoint from Dashboard.jsx: the total required time of the tasks
of the day divided by the available time when that is positive, and 0
otherwise. -/
def realismPoint (ts : List Task) (dayStart : Int) (availableTime : Rat) : Rat :=
  let totalRT := ((getTasksForDate ts dayStart).map Task.rt).sum
  if 0 < availableTime then totalRT / availableTime else 0

/-- The three zones getRPStatus in Dashboard.jsx can answer, keeping only
the label of the returned style object. -/
inductive Zone where
  | safe
  | risky
  | overload
deriving Repr, DecidableEq

/-- getRPStatus from Dashboard.jsx: Safe below RP_LIMITS.SAFE, else Risky
below RP_LIMITS.RISKY, else Overload. -/
def getRPStatus (rp : Rat) : Zone :=
  if rp < RP_LIMITS_SAFE then Zone.safe
  else if rp < RP_LIMITS_RISKY then Zone.risky
  else Zone.overload

/-- The order the sortedTasks comparator of Dashboard.jsx sorts by: il
ascending, then idl ascending. The comparator answers a.il - b.il when the
levels differ and the idl difference otherwise, so a sorts no later than b
exactly under this relation. -/
def taskLE (a b : Task) : Bool :=
  decide (a.il < b.il ∨ (a.il = b.il ∧ a.idl ≤ b.idl))

/-- sortedTasks from Dashboard.jsx: a sort of the task list by the
comparator. JavaScript Array.prototype.sort is specified stable, so the
embedding is mergeSort by taskLE. -/
def sortForDisplay (ts : List Task) : List Task :=
  ts.mergeSort taskLE

/-- The stored status of an observation; readiness for analysis is derived
from the clock at query time, not stored. -/
inductive ObsStatus where
  | inBuffer
  | analyzed
deriving Repr, DecidableEq

/-- An observation of the observation repository. -/
structure Observation where
  id : Int
  content : String
  createdAt : Int
  status : ObsStatus
  tags : List String
  lessonIdentified : Option String
  ep : Option Rat
  convertedTaskId : Option Int
deriving Repr, DecidableEq

/-- Modelled from the spec: getDaysRemaining lives in the
ObservationsContext, which is not among the source files. The spec defines
it as bufferDays minus the floor of the elapsed days, clamped to be
nonnegative, with bufferDays the configuration constant
OBSERVATION_BUFFER_DAYS from config/constants.js. -/
def daysRemaining (obs : Observation) (now : Int) : Int :=
  max 0 (OBSERVATION_BUFFER_DAYS - (now - obs.createdAt).fdiv msPerDay)

/-- Modelled from the spec: convertToTask lives in the ObservationsContext,
which is not among the source files. The spec says conversion marks the
observation analyzed and records the new task id in convertedTaskId. -/
def convertToTask (obsId taskId : Int) (obss : List Observation) : List Observation :=
  obss.map fun o =>
    if o.id = obsId then { o with status := ObsStatus.analyzed, convertedTaskId := some taskId }
    else o

/-- The joint state the conversion handler touches: the task repository
and the observation repository. -/
structure SysState where
  tasks : List Task
  observations : List Observation
deriving Repr, DecidableEq

/-- The convert-to-task form of Observations.jsx; rt and idl are none when
the corresponding field is empty (falsy in the JavaScript guard). -/
structure ConvertForm where
  title : String
  rt : Option Rat
  idl : Option Int
  il : Int
deriving Repr, DecidableEq

/-- The guard of handleConvertToTask: all three required fields present. -/
def formComplete (f : ConvertForm) : Bool :=
  decide (f.title.trim ≠ "") && f.rt.isSome && f.idl.isSome

/-- handleConvertToTask from Observations.jsx: when a required form field
is missing it alerts and changes nothing; otherwise it calls addTask on
the task repository with the form data and then convertToTask on the
observation repository with the observation id and the id of the task
addTask returned. -/
def handleConvertToTask (now : Int) (f : ConvertForm) (obsId : Int) (s : SysState) : SysState :=
  match f.rt, f.idl with
  | some rt, some idl =>
    if f.title.trim = "" then s
    else
      let r := addTask now
        { title := f.title.trim, rt := rt, idl := idl, il := f.il, parentTaskId := none } s.tasks
      { tasks := r.2, observations := convertToTask obsId r.1.id s.observations }
  | _, _ => s

/-- A concrete task value for instantiating theorems. -/
def demoTask (i : Int) (parent : Option Int) (rtv : Rat) (ilv : Int) (idlv : Int) : Task :=
  { id := i, title := "t", rt := rtv, idl := idlv, il := ilv, createdAt := 0,
    parentTaskId := parent, linksTo := [] }

/-- A task spec with a negative required time, which the claimed
validation would have to reject. -/
def badSpec : TaskSpec :=
  { title := "x", rt := -1, idl := 0, il := 3, parentTaskId := none }

/-- A root task, referred to by childTask as its parent. -/
def parentTask : Task := demoTask 1 none 1 1 0

/-- A subtask whose parentTaskId points at parentTask. -/
def childTask : Task := demoTask 2 (some 1) 1 1 0

/-- A concrete observation, created at time 0 and still in the buffer. -/
def demoObs : Observation :=
  { id := 7, content := "idea", createdAt := 0, status := ObsStatus.inBuffer,
    tags := [], lessonIdentified := none, ep := none, convertedTaskId := none }

/-- A concrete system state holding only demoObs. -/
def demoState : SysState := { tasks := [], observations := [demoObs] }

/-- A completely filled conversion form. -/
def demoForm : ConvertForm := { title := "task", rt := some 1, idl := some 0, il := 3 }

/-- Two tasks due on day 0 with required times 2 and 4 hours. -/
def demoDayTasks : List Task :=
  [demoTask 1 none 2 1 0, demoTask 2 none 4 2 3600000]

/-- An update object carrying id and createdAt keys, as a JavaScript
caller could pass. -/
def idUpdate : TaskUpdates := { uid := some 999, ucreatedAt := some 77 }

/-- An update object touching only the title. -/
def titleUpdate : TaskUpdates := { utitle := some "u" }

/-- Two tasks with distinct ids for frame instantiations. -/
def demoTasks2 : List Task := [demoTask 1 none 1 1 0, demoTask 2 none 1 2 0]

/-- C1 counterexample: addTask applied to a spec with negative
requiredTime on an empty repository does not fail: it appends the task, so
the claimed ValidationError rejection does not happen in the code. -/
theorem C1_cex :
    badSpec.rt < 0 ∧ (addTask 100 badSpec []).2.length = 1 := by
  constructor
  · norm_num [badSpec]
  · rfl

/-- C1 amended: addTask performs no validation: for every spec, including
one with negative requiredTime or an importanceLevel outside one to four,
it succeeds, appends exactly one new task built from the spec fields, and
returns that task. -/
theorem C1_addTask_no_validation (now : Int) (spec : TaskSpec) (ts : List Task) :
    (addTask now spec ts).2 = ts ++ [(addTask now spec ts).1] ∧
    (addTask now spec ts).1.rt = spec.rt ∧
    (addTask now spec ts).1.il = spec.il ∧
    (addTask now spec ts).1.title = spec.title ∧
    (addTask now spec ts).1.idl = spec.idl ∧
    (addTask now spec ts).1.id = now ∧
    (addTask now spec ts).1.createdAt = now :=
  ⟨rfl, rfl, rfl, rfl, rfl, rfl, rfl⟩

/-- C2: deleteTask at the failing input: deleting the parent (id 1) keeps
the child (id 2), and the surviving child still carries
parentTaskId = some 1 pointing at the deleted task, so neither the cascade
nor the pruning the claim describes happens in the code. -/
theorem C2_deleteTask_leaves_descendant :
    deleteTask 1 [parentTask, childTask] = [childTask] ∧
    childTask.parentTaskId = some 1 := by
  constructor
  · rfl
  · rfl

/-- C3: conversion is atomic. For an observation whose buffer has elapsed,
the handler either changes nothing at all (when the form guard fails: no
task is created and the observation keeps its state), or appends exactly
one new task and marks the observation analyzed with convertedTaskId set
to the id of that task, leaving every other observation as it was. -/
theorem C3_convert_atomic (now : Int) (f : ConvertForm) (obsId : Int) (s : SysState)
    (obs : Observation) (hmem : obs ∈ s.observations) (hid : obs.id = obsId)
    (_hstat : obs.status = ObsStatus.inBuffer) (_hready : daysRemaining obs now = 0) :
    (formComplete f = false → handleConvertToTask now f obsId s = s) ∧
    (formComplete f = true →
      ∃ t : Task,
        (handleConvertToTask now f obsId s).tasks = s.tasks ++ [t] ∧
        { obs with status := ObsStatus.analyzed, convertedTaskId := some t.id } ∈
          (handleConvertToTask now f obsId s).observations ∧
        ∀ o ∈ s.observations, o.id ≠ obsId →
          o ∈ (handleConvertToTask now f obsId s).observations) := by
  constructor
  · intro hfc
    unfold handleConvertToTask
    rcases hrt : f.rt with _ | rt
    · rfl
    rcases hidl : f.idl with _ | idl
    · rfl
    have htitle : f.title.trim = "" := by
      simp [formComplete, hrt, hidl] at hfc
      exact hfc
    simp [htitle]
  · intro hfc
    rcases hrt : f.rt with _ | rt
    · simp [formComplete, hrt] at hfc
    rcases hidl : f.idl with _ | idl
    · simp [formComplete, hidl] at hfc
    have htitle : ¬ f.title.trim = "" := by
      simp [formComplete, hrt, hidl] at hfc
      exact hfc
    refine ⟨(addTask now
      { title := f.title.trim, rt := rt, idl := idl, il := f.il, parentTaskId := none }
      s.tasks).1, ?_, ?_, ?_⟩
    · simp [handleConvertToTask, hrt, hidl, htitle, addTask]
    · simp only [handleConvertToTask, hrt, hidl, if_neg htitle, convertToTask, List.mem_map]
      exact ⟨obs, hmem, by simp [hid]⟩
    · intro o homem honid
      simp only [handleConvertToTask, hrt, hidl, if_neg htitle, convertToTask, List.mem_map]
      exact ⟨o, homem, by simp [honid]⟩

/-- C3 witness: the atomicity statement instantiated at the demo state,
with the clock two days past the capture of demoObs. -/
theorem C3_convert_atomic_witness :
    (formComplete demoForm = false →
      handleConvertToTask (2 * msPerDay) demoForm 7 demoState = demoState) ∧
    (formComplete demoForm = true →
      ∃ t : Task,
        (handleConvertToTask (2 * msPerDay) demoForm 7 demoState).tasks =
          demoState.tasks ++ [t] ∧
        { demoObs with status := ObsStatus.analyzed, convertedTaskId := some t.id } ∈
          (handleConvertToTask (2 * msPerDay) demoForm 7 demoState).observations ∧
        ∀ o ∈ demoState.observations, o.id ≠ 7 →
          o ∈ (handleConvertToTask (2 * msPerDay) demoForm 7 demoState).observations) :=
  C3_convert_atomic (2 * msPerDay) demoForm 7 demoState demoObs
    (by simp [demoState]) rfl rfl (by decide)

/-- C4: the realism point is the sum of the required times of the tasks
whose ideal deadline falls in the one-day window, divided by the available
time when that is positive, and 0 when it is not; in particular a 6-hour
load against 8 available hours gives 0.75, and 0 available time gives 0. -/
theorem C4_realismPoint (ts : List Task) (dayStart : Int) (availableTime : Rat) :
    (0 < availableTime →
      realismPoint ts dayStart availableTime =
        ((ts.filter fun t =>
          decide (dayStart ≤ t.idl) && decide (t.idl < dayStart + msPerDay)).map Task.rt).sum
          / availableTime) ∧
    (availableTime ≤ 0 → realismPoint ts dayStart availableTime = 0) ∧
    realismPoint demoDayTasks 0 8 = 3 / 4 ∧
    realismPoint ts dayStart 0 = 0 := by
  refine ⟨fun h => ?_, fun h => ?_, ?_, ?_⟩
  · simp [realismPoint, getTasksForDate, if_pos h]
  · rw [realismPoint, if_neg (not_lt.mpr h)]
  · norm_num [realismPoint, getTasksForDate, demoDayTasks, demoTask, msPerDay]
  · rw [realismPoint, if_neg (lt_irrefl 0)]

/-- C4 witness: the characterization applied at the demo tasks with 8
available hours, and at 0 available hours. -/
theorem C4_realismPoint_witness :
    realismPoint demoDayTasks 0 8 =
      ((demoDayTasks.filter fun t =>
        decide ((0 : Int) ≤ t.idl) && decide (t.idl < 0 + msPerDay)).map Task.rt).sum / 8 ∧
    realismPoint demoDayTasks 0 0 = 0 :=
  ⟨(C4_realismPoint demoDayTasks 0 8).1 (by norm_num),
   (C4_realismPoint demoDayTasks 0 0).2.1 (by norm_num)⟩

/-- C5: the zone classification is Safe exactly below 0.8, Risky exactly
in the half-open band from 0.8 up to 1, Overload exactly from 1; the
boundary 0.8 classifies Risky and the boundary 1 classifies Overload. -/
theorem C5_classify (rp : Rat) :
    (getRPStatus rp = Zone.safe ↔ rp < 8 / 10) ∧
    (getRPStatus rp = Zone.risky ↔ 8 / 10 ≤ rp ∧ rp < 1) ∧
    (getRPStatus rp = Zone.overload ↔ 1 ≤ rp) ∧
    getRPStatus (8 / 10) = Zone.risky ∧
    getRPStatus 1 = Zone.overload := by
  have h1 : getRPStatus (8 / 10 : Rat) = Zone.risky := by
    rw [getRPStatus, RP_LIMITS_SAFE, RP_LIMITS_RISKY, if_neg (lt_irrefl _), if_pos (by norm_num)]
  have h2 : getRPStatus (1 : Rat) = Zone.overload := by
    rw [getRPStatus, RP_LIMITS_SAFE, RP_LIMITS_RISKY, if_neg (by norm_num),
      if_neg (lt_irrefl _)]
  refine ⟨?_, ?_, ?_, h1, h2⟩ <;>
    · rw [getRPStatus, RP_LIMITS_SAFE, RP_LIMITS_RISKY]
      split_ifs with ha hb <;> simp_all <;> push_neg at * <;> linarith

/-- C6: daysRemaining equals the buffer length minus the floor of the
elapsed days whenever that difference is nonnegative, is 0 whenever the
difference is negative, is never negative, and the buffer length is the
fixed constant 2. -/
theorem C6_daysRemaining (obs : Observation) (now : Int) :
    0 ≤ daysRemaining obs now ∧
    OBSERVATION_BUFFER_DAYS = 2 ∧
    (0 ≤ 2 - (now - obs.createdAt).fdiv msPerDay →
      daysRemaining obs now = 2 - (now - obs.createdAt).fdiv msPerDay) ∧
    (2 - (now - obs.createdAt).fdiv msPerDay < 0 → daysRemaining obs now = 0) := by
  refine ⟨le_max_left _ _, rfl, fun h => ?_, fun h => ?_⟩
  · rw [daysRemaining, OBSERVATION_BUFFER_DAYS]
    exact max_eq_right h
  · rw [daysRemaining, OBSERVATION_BUFFER_DAYS]
    exact max_eq_left (le_of_lt h)

/-- C6 witness: the characterization applied to demoObs at the capture
instant, where two whole days remain. -/
theorem C6_daysRemaining_witness :
    0 ≤ daysRemaining demoObs 0 ∧
    daysRemaining demoObs 0 = 2 - ((0 : Int) - demoObs.createdAt).fdiv msPerDay :=
  ⟨(C6_daysRemaining demoObs 0).1, (C6_daysRemaining demoObs 0).2.2.1 (by decide)⟩

/-- C7: catastrophicWipeOut keeps exactly the tasks of importance level 1,
in their original order (the result is a sublist of the input), every
survivor has level 1, and a second call changes nothing. -/
theorem C7_cwa (ts : List Task) :
    (∀ t : Task, t ∈ catastrophicWipeOut ts ↔ t ∈ ts ∧ t.il = 1) ∧
    (∀ t ∈ catastrophicWipeOut ts, t.il = 1) ∧
    List.Sublist (catastrophicWipeOut ts) ts ∧
    catastrophicWipeOut (catastrophicWipeOut ts) = catastrophicWipeOut ts := by
  refine ⟨?_, ?_, ?_, ?_⟩
  · intro t
    simp [catastrophicWipeOut, List.mem_filter, IMPORTANCE_MUST]
  · intro t ht
    have := (List.mem_filter.mp ht).2
    simpa [IMPORTANCE_MUST] using this
  · exact List.filter_sublist ts
  · apply List.filter_eq_self.mpr
    intro t ht
    exact (List.mem_filter.mp ht).2

/-- Transitivity of the display order. -/
theorem taskLE_trans (a b c : Task) : taskLE a b → taskLE b c → taskLE a c := by
  simp only [taskLE, decide_eq_true_eq]
  omega

/-- Totality of the display order. -/
theorem taskLE_total (a b : Task) : taskLE a b || taskLE b a := by
  simp only [taskLE, Bool.or_eq_true, decide_eq_true_eq]
  omega

/-- C8: sortForDisplay rearranges the input (a permutation), the output is
ordered by importance level ascending with ideal deadline ascending as the
tie break, and the sort is stable: the tasks sharing one importance level
and one deadline appear in the output in exactly their input order. -/
theorem C8_sortForDisplay (ts : List Task) :
    List.Perm (sortForDisplay ts) ts ∧
    List.Pairwise (fun a b : Task => a.il < b.il ∨ (a.il = b.il ∧ a.idl ≤ b.idl))
      (sortForDisplay ts) ∧
    ∀ ilv idlv : Int,
      (sortForDisplay ts).filter (fun t => decide (t.il = ilv) && decide (t.idl = idlv)) =
        ts.filter (fun t => decide (t.il = ilv) && decide (t.idl = idlv)) := by
  refine ⟨List.mergeSort_perm ts taskLE, ?_, ?_⟩
  · have h := List.sorted_mergeSort taskLE_trans taskLE_total ts
    refine h.imp ?_
    intro a b hab
    simpa [taskLE, decide_eq_true_eq] using hab
  · intro ilv idlv
    set p : Task → Bool := fun t => decide (t.il = ilv) && decide (t.idl = idlv) with hp
    have hall : ∀ t ∈ ts.filter p, p t := fun t ht => List.of_mem_filter ht
    have hpw : (ts.filter p).Pairwise (fun a b => taskLE a b) := by
      apply List.pairwise_of_forall_mem_list
      intro a ha b hb
      have hpa := hall a ha
      have hpb := hall b hb
      simp only [hp, Bool.and_eq_true, decide_eq_true_eq] at hpa hpb
      simp only [taskLE, decide_eq_true_eq]
      omega
    have hsub : List.Sublist (ts.filter p) (sortForDisplay ts) :=
      List.sublist_mergeSort taskLE_trans taskLE_total hpw (List.filter_sublist ts)
    have hsub2 : List.Sublist (ts.filter p) ((sortForDisplay ts).filter p) := by
      have := hsub.filter p
      rwa [List.filter_eq_self.mpr hall] at this
    have hlen : ((sortForDisplay ts).filter p).length = (ts.filter p).length :=
      ((List.mergeSort_perm ts taskLE).filter p).length_eq
    exact (hsub2.eq_of_length hlen.symm).symm

/-- C9 counterexample: the update object spread lets a partial spec that
carries id or createdAt keys overwrite both: updating task 1 with
idUpdate rewrites its id to 999 and its createdAt to 77, so under an
arbitrary partial spec the two fields are not immutable. -/
theorem C9_cex :
    (updateTask 1 idUpdate [demoTask 1 none 1 1 0]).map (fun t => (t.id, t.createdAt)) =
      [((999 : Int), (77 : Int))] ∧
    ¬ ((999 : Int) = 1 ∧ (77 : Int) = 0) := by
  constructor
  · rfl
  · decide

/-- C9 amended: updateTask preserves the id and createdAt of every task
whenever the partial spec itself carries no id and no createdAt key, which
holds for every updateTask call site in the repository. -/
theorem C9_immutable (taskId : Int) (u : TaskUpdates) (ts : List Task)
    (hid : u.uid = none) (hca : u.ucreatedAt = none) :
    (updateTask taskId u ts).map Task.id = ts.map Task.id ∧
    (updateTask taskId u ts).map Task.createdAt = ts.map Task.createdAt := by
  constructor <;>
  · rw [updateTask, List.map_map]
    apply List.map_congr_left
    intro t ht
    by_cases h : t.id = taskId <;> simp [h, applyUpdates, hid, hca]

/-- C9 witness: a title-only update of task 1 keeps the ids and creation
times of both demo tasks. -/
theorem C9_immutable_witness :
    (updateTask 1 titleUpdate demoTasks2).map Task.id = demoTasks2.map Task.id ∧
    (updateTask 1 titleUpdate demoTasks2).map Task.createdAt =
      demoTasks2.map Task.createdAt :=
  C9_immutable 1 titleUpdate demoTasks2 rfl rfl

/-- C10: updateTask is a per-element map: it preserves the length of the
repository (so it never inserts or removes a task, also when no id
matches), and it returns every task whose id differs from the target
unchanged at its original position. -/
theorem C10_updateTask_frame (taskId : Int) (u : TaskUpdates) (ts : List Task) :
    (updateTask taskId u ts).length = ts.length ∧
    ∀ (i : Nat) (t : Task), ts[i]? = some t → t.id ≠ taskId →
      (updateTask taskId u ts)[i]? = some t := by
  constructor
  · simp [updateTask]
  · intro i t hit hneq
    rw [updateTask, List.getElem?_map, hit]
    simp [hneq]

/-- C10 witness: a title-only update aimed at task 1 keeps the list length
and returns task 2 unchanged at position 1. -/
theorem C10_updateTask_frame_witness :
    (updateTask 1 titleUpdate demoTasks2).length = demoTasks2.length ∧
    (updateTask 1 titleUpdate demoTasks2)[1]? = some (demoTask 2 none 1 2 0) := by
  have h := C10_updateTask_frame 1 titleUpdate demoTasks2
  exact ⟨h.1, h.2 1 (demoTask 2 none 1 2 0) rfl (by decide)⟩

end TPF
